import Mathlib

/-!
# EconBank (`econApp.py`) — shallow embedding and verification

A shallow embedding of the core of `src/econApp.py`: the data model
(users, transaction logs, the single JSON store), the ledger operations
(`log_transaction`, `calculate_summary`), the auth operations (the login
and sign-up branches of `login_page`, `hash_password`), persistence
(`load_data` / `save_data`, modelled as serialization of the store to a
JSON value), and the admin rollup of `admin_dashboard`.

Modelling decisions:
* Python `dict` (insertion-ordered, unique keys) is embedded as an
  association list `List (String × User)`; lookups take the first match
  and dict insertion appends at the end, matching Python semantics.
* Transaction amounts (`float` in Python) are embedded as exact
  rationals `ℚ`; the spec describes amounts as real numbers.
* `datetime.now()` is nondeterministic wall-clock input, so every
  operation that stamps an entry takes the timestamp string as an
  explicit argument.
* The mutable `st.session_state['data']` together with the persisted
  file is embedded as an explicit `AppState` record that every operation
  takes and returns; `save_data` copies the serialized current store
  into the persisted slot, as `json.dump` does.
-/

namespace EconBank

/-- A transaction log entry, as built by `log_transaction`
(`econApp.py:43`–`48`): `{"type": ..., "amount": float(...),
"description": ..., "timestamp": ...}`. -/
structure Entry where
  type : String
  amount : ℚ
  description : String
  timestamp : String
deriving Repr, DecidableEq

/-- A user record, as stored under `data['users'][name]`:
`{"password": <hex digest>, "role": ..., "logs": [...]}`
(`econApp.py:20`–`22`, `210`–`212`). -/
structure User where
  password : String
  role : String
  logs : List Entry
deriving Repr, DecidableEq

/-- The root document `{"users": {...}}`.  The Python `dict` of users is
embedded as an insertion-ordered association list with unique keys
(Python dicts preserve insertion order; new keys go at the end). -/
structure Store where
  users : List (String × User)
deriving Repr, DecidableEq

/-- First-match lookup in the users dict, embedding `d[k]` /
`k in d` on a Python dict. -/
def dictGet (users : List (String × User)) (k : String) : Option User :=
  (users.find? (fun p => p.1 == k)).map Prod.snd

/-- Pointwise update of the entry (entries) with the given key,
embedding in-place mutation `d[k] = f(d[k])` of a Python dict value. -/
def dictUpdate (users : List (String × User)) (k : String) (f : User → User) :
    List (String × User) :=
  users.map (fun p => if p.1 == k then (p.1, f p.2) else p)

/-! ## The hash (modelled from the spec)

`hash_password` calls `hashlib.sha256(password.encode()).hexdigest()`
(`econApp.py:39`–`40`); the hash implementation is the Python standard
library's, not code of this repository. -/

/-- Hex digit characters `0`–`9`, `a`–`f` for a value below 16. -/
def hexChar (n : Nat) : Char :=
  if n < 10 then Char.ofNat (48 + n) else Char.ofNat (87 + n)

/-- Numeric value of a hex digit character (left inverse of `hexChar`). -/
def hexVal (c : Char) : Nat :=
  if 87 ≤ c.toNat then c.toNat - 87 else c.toNat - 48

/-- Six lowercase hex digits encoding one character's code point
(code points are below `16^6`). -/
def charToHex (c : Char) : List Char :=
  [hexChar (c.toNat / 16 ^ 5 % 16), hexChar (c.toNat / 16 ^ 4 % 16),
   hexChar (c.toNat / 16 ^ 3 % 16), hexChar (c.toNat / 16 ^ 2 % 16),
   hexChar (c.toNat / 16 % 16), hexChar (c.toNat % 16)]

/-- Modelled from the spec: `hash_password` (`econApp.py:39`–`40`) wraps
`hashlib.sha256(...).hexdigest()`, whose implementation is external to
this repository.  The spec characterizes it as a deterministic one-way
hex digest such that changing the password changes the digest
(§4.2, §8: "changing one character of the password must fail").  We
model it as a deterministic, collision-free hex digest: each character
of the password contributes six lowercase hex digits. -/
def hash_password (password : String) : String :=
  ⟨password.data.foldr (fun c acc => charToHex c ++ acc) []⟩

/-- Decoder for `hash_password`'s digest, used only to prove the digest
collision-free (the spec's stated property of the hash). -/
def hexDecode : List Char → List Char
  | a :: b :: c :: d :: e :: f :: rest =>
      Char.ofNat (hexVal a * 16 ^ 5 + hexVal b * 16 ^ 4 + hexVal c * 16 ^ 3 +
        hexVal d * 16 ^ 2 + hexVal e * 16 + hexVal f) :: hexDecode rest
  | _ => []

/-! ## Store: load and save -/

/-- The serialized JSON document (`json.dump` / `json.load` operate on
this tree; concrete whitespace such as `indent=4` is not part of the
document's structure). -/
inductive Json where
  | str : String → Json
  | num : ℚ → Json
  | arr : List Json → Json
  | obj : List (String × Json) → Json
deriving Repr

/-- Serialization of one log entry into the persisted document
(the shape written by `json.dump` for the dict of `econApp.py:43`–`48`). -/
def encodeEntry (e : Entry) : Json :=
  .obj [("type", .str e.type), ("amount", .num e.amount),
        ("description", .str e.description), ("timestamp", .str e.timestamp)]

/-- Serialization of one user record (`econApp.py:20`–`22`). -/
def encodeUser (u : User) : Json :=
  .obj [("password", .str u.password), ("role", .str u.role),
        ("logs", .arr (u.logs.map encodeEntry))]

/-- Serialization of the whole store, the document `save_data` writes
(`econApp.py:24`–`28`). -/
def encodeStore (s : Store) : Json :=
  .obj [("users", .obj (s.users.map (fun p => (p.1, encodeUser p.2))))]

/-- Field lookup in a JSON object. -/
def jGet (fields : List (String × Json)) (k : String) : Option Json :=
  (fields.find? (fun p => p.1 == k)).map Prod.snd

/-- Element-wise decoding of a JSON array. -/
def decodeList {α : Type} (g : Json → Option α) : List Json → Option (List α)
  | [] => some []
  | j :: rest =>
      match g j, decodeList g rest with
      | some x, some xs => some (x :: xs)
      | _, _ => none

/-- Reading one log entry back from the persisted document.  `json.load`
returns the raw tree and the app reads the fields directly
(`econApp.py:53`, `117`), so the decoder follows the §6 document schema. -/
def decodeEntry (j : Json) : Option Entry :=
  match j with
  | .obj fields =>
      match jGet fields "type", jGet fields "amount",
            jGet fields "description", jGet fields "timestamp" with
      | some (.str t), some (.num a), some (.str d), some (.str ts) =>
          some ⟨t, a, d, ts⟩
      | _, _, _, _ => none
  | _ => none

/-- Reading one user record back from the persisted document. -/
def decodeUser (j : Json) : Option User :=
  match j with
  | .obj fields =>
      match jGet fields "password", jGet fields "role", jGet fields "logs" with
      | some (.str pw), some (.str r), some (.arr ls) =>
          match decodeList decodeEntry ls with
          | some logs => some ⟨pw, r, logs⟩
          | none => none
      | _, _, _ => none
  | _ => none

/-- Reading the users object back: one user record per key, in order. -/
def decodeUsers : List (String × Json) → Option (List (String × User))
  | [] => some []
  | (name, uj) :: rest =>
      match decodeUser uj, decodeUsers rest with
      | some u, some us => some ((name, u) :: us)
      | _, _ => none

/-- Reading the whole store back from the persisted document
(`json.load` in `load_data`, `econApp.py:16`–`17`). -/
def decodeStore (j : Json) : Option Store :=
  match j with
  | .obj fields =>
      match jGet fields "users" with
      | some (.obj us) =>
          match decodeUsers us with
          | some users => some ⟨users⟩
          | none => none
      | _ => none
  | _ => none

/-- The default document returned by `load_data` when no persisted file
exists (`econApp.py:18`–`22`): exactly the bootstrap admin account. -/
def load_data_default : Store :=
  ⟨[("admin", ⟨hash_password "admin123", "admin", []⟩)]⟩

/-- The live application state: the in-memory document
`st.session_state['data']` plus the persisted file's contents. -/
structure AppState where
  data : Store
  persisted : Json

/-- `save_data` (`econApp.py:24`–`28`): serializes the current in-memory
document over the persisted file. -/
def save_data (st : AppState) : AppState :=
  { st with persisted := encodeStore st.data }

/-! ## Ledger -/

/-- `log_transaction` (`econApp.py:42`–`50`): builds the entry, appends
it to the user's `logs`, then calls `save_data`.  The timestamp
(`datetime.now()` formatted) is passed explicitly.  Python raises
`KeyError` when `user` is absent; here an absent key leaves the store
unchanged, and the theorems assume the user is present. -/
def log_transaction (st : AppState) (user t_type : String) (amount : ℚ)
    (description timestamp : String) : AppState :=
  let entry : Entry := ⟨t_type, amount, description, timestamp⟩
  save_data { st with
    data := ⟨dictUpdate st.data.users user (fun u => { u with logs := u.logs ++ [entry] })⟩ }

/-- `calculate_summary` (`econApp.py:52`–`58`): sums `amount` over the
logs of each of the four types, then derives the balance. -/
def calculate_summary (user_logs : List Entry) : ℚ × ℚ × ℚ × ℚ × ℚ :=
  let earned := ((user_logs.filter (fun log => log.type == "Earned")).map Entry.amount).sum
  let spent := ((user_logs.filter (fun log => log.type == "Spent")).map Entry.amount).sum
  let given := ((user_logs.filter (fun log => log.type == "Given")).map Entry.amount).sum
  let received := ((user_logs.filter (fun log => log.type == "Received")).map Entry.amount).sum
  let balance := earned + received - spent - given
  (earned, spent, given, received, balance)

/-- The submit branch of `make_transaction_page` (`econApp.py:130`–`136`):
`if amount > 0` log the transaction (second component `true` = success
message), else show an error and change nothing. -/
def submit_transaction (st : AppState) (username t_type : String) (amount : ℚ)
    (description timestamp : String) : AppState × Bool :=
  if 0 < amount then
    (log_transaction st username t_type amount description timestamp, true)
  else
    (st, false)

/-! ## Auth -/

/-- Python's `str.strip()`: drop whitespace from both ends. -/
def pyStrip (s : String) : String :=
  ⟨((s.data.dropWhile Char.isWhitespace).reverse.dropWhile Char.isWhitespace).reverse⟩

/-- The login branch of `login_page` (`econApp.py:196`): success iff the
username is a key of `data['users']` and the stored `password` digest
equals `hash_password(password)`. -/
def authenticate (store : Store) (username password : String) : Bool :=
  match dictGet store.users username with
  | some u => u.password == hash_password password
  | none => false

/-- The sign-up branch of `login_page` (`econApp.py:204`–`216`):
reject blank (stripped-empty) username or password, then reject an
existing username, otherwise insert the new user record and `save_data`.
The second component is the error message, `none` on success. -/
def signup (st : AppState) (username password : String) :
    AppState × Option String :=
  if pyStrip username == "" || pyStrip password == "" then
    (st, some "Username and password cannot be empty")
  else if (dictGet st.data.users username).isSome then
    (st, some "Username already exists")
  else
    (save_data { st with
       data := ⟨st.data.users ++ [(username, ⟨hash_password password, "user", []⟩)]⟩ },
     none)

/-! ## Aggregator (`admin_dashboard`, `econApp.py:151`–`181`) -/

/-- The flattening loop of `admin_dashboard` (`econApp.py:151`–`154`):
every user's log entries tagged with the owning username, in store
order. -/
def all_logs (store : Store) : List (String × Entry) :=
  store.users.flatMap (fun p => p.2.logs.map (fun log => (p.1, log)))

/-- `df[df['type'] == t]['amount'].sum()` over the flattened frame
(`econApp.py:163`–`166`): the global total for one transaction type. -/
def total_of (store : Store) (t : String) : ℚ :=
  (((all_logs store).filter (fun p => p.2.type == t)).map (fun p => p.2.amount)).sum

/-- `df.groupby("User")["amount"].sum()` (`econApp.py:181`): one user's
total over the flattened frame. -/
def user_total (store : Store) (u : String) : ℚ :=
  (((all_logs store).filter (fun p => p.1 == u)).map (fun p => p.2.amount)).sum

/-! ## Spec-side definitions

`bucketSum` restates the spec's "sums `amount` grouped by `type`" as an
indicator sum, independently of the filter-then-sum shape of
`calculate_summary`; the theorems below connect the two. -/

/-- The spec's per-type total of a list of logs: each entry contributes
its amount when its type matches, and 0 otherwise. -/
def bucketSum (logs : List Entry) (t : String) : ℚ :=
  (logs.map (fun log => if log.type = t then log.amount else 0)).sum

/-- A convenient concrete application state: the freshly bootstrapped
document, already persisted. -/
def st0 : AppState :=
  ⟨load_data_default, encodeStore load_data_default⟩

/-- The spec's two-user rollup scenario: alice with one Earned 50 and
bob with one Earned 20. -/
def twoUserStore : Store :=
  ⟨[("alice", ⟨hash_password "pw1", "user", [⟨"Earned", 50, "a", "t1"⟩]⟩),
    ("bob", ⟨hash_password "pw2", "user", [⟨"Earned", 20, "b", "t2"⟩]⟩)]⟩

/-! ## Helper lemmas -/

theorem sum_filter_eq_bucketSum (logs : List Entry) (t : String) :
    ((logs.filter (fun log => log.type == t)).map Entry.amount).sum = bucketSum logs t := by
  induction logs with
  | nil => rfl
  | cons e es ih =>
      simp only [bucketSum, List.filter_cons, List.map_cons, List.sum_cons] at *
      by_cases he : e.type = t
      · simp [he, ih]
      · simp [he, ih]

theorem calculate_summary_eq_bucketSum (logs : List Entry) :
    calculate_summary logs =
      (bucketSum logs "Earned", bucketSum logs "Spent", bucketSum logs "Given",
       bucketSum logs "Received",
       bucketSum logs "Earned" + bucketSum logs "Received" - bucketSum logs "Spent" -
         bucketSum logs "Given") := by
  simp [calculate_summary, sum_filter_eq_bucketSum]

theorem bucketSum_append_single (logs : List Entry) (en : Entry) (t : String) :
    bucketSum (logs ++ [en]) t = bucketSum logs t + (if en.type = t then en.amount else 0) := by
  simp [bucketSum]

theorem char_toNat_lt (c : Char) : c.toNat < 16 ^ 6 := by
  have h := c.valid
  rcases h with h | ⟨h1, h2⟩ <;>
    simp only [Char.toNat, UInt32.lt_def, UInt32.le_def, Fin.lt_def, Fin.le_def] at * <;>
    · simp only [UInt32.toNat] at *
      omega

theorem hexVal_hexChar (n : Nat) (h : n < 16) : hexVal (hexChar n) = n := by
  interval_cases n <;> decide

theorem hexVal_hexChar_mod (x : Nat) : hexVal (hexChar (x % 16)) = x % 16 :=
  hexVal_hexChar (x % 16) (Nat.mod_lt x (by norm_num))

theorem hexDecode_charToHex (c : Char) (l : List Char) :
    hexDecode (charToHex c ++ l) = c :: hexDecode l := by
  simp only [charToHex, List.cons_append, List.nil_append, hexDecode, hexVal_hexChar_mod]
  have hb := char_toNat_lt c
  have hx : c.toNat / 16 ^ 5 % 16 * 16 ^ 5 + c.toNat / 16 ^ 4 % 16 * 16 ^ 4 +
      c.toNat / 16 ^ 3 % 16 * 16 ^ 3 + c.toNat / 16 ^ 2 % 16 * 16 ^ 2 +
      c.toNat / 16 % 16 * 16 + c.toNat % 16 = c.toNat := by omega
  rw [hx, Char.ofNat_toNat]
  rfl

theorem hexDecode_foldr_charToHex (l : List Char) :
    hexDecode (l.foldr (fun c acc => charToHex c ++ acc) []) = l := by
  induction l with
  | nil => rfl
  | cons c cs ih => simp [List.foldr_cons, hexDecode_charToHex, ih]

theorem hash_password_injective : Function.Injective hash_password := by
  intro p q h
  apply String.ext
  have h2 := congrArg (fun s : String => hexDecode s.data) h
  simpa [hash_password, hexDecode_foldr_charToHex] using h2

theorem dictGet_nil (k : String) : dictGet [] k = none := rfl

theorem dictGet_cons (p : String × User) (rest : List (String × User)) (k : String) :
    dictGet (p :: rest) k = if p.1 = k then some p.2 else dictGet rest k := by
  by_cases h : p.1 = k
  · simp [dictGet, List.find?_cons_of_pos, h]
  · simp [dictGet, List.find?_cons_of_neg, h]

theorem dictUpdate_cons (p : String × User) (rest : List (String × User)) (k : String)
    (f : User → User) :
    dictUpdate (p :: rest) k f =
      (if p.1 = k then (p.1, f p.2) else p) :: dictUpdate rest k f := by
  by_cases h : p.1 = k <;> simp [dictUpdate, h]

theorem dictGet_dictUpdate_self (users : List (String × User)) (k : String)
    (f : User → User) (u : User) (h : dictGet users k = some u) :
    dictGet (dictUpdate users k f) k = some (f u) := by
  induction users with
  | nil => simp [dictGet] at h
  | cons p rest ih =>
      rw [dictGet_cons] at h
      rw [dictUpdate_cons, dictGet_cons]
      by_cases hp : p.1 = k
      · subst hp
        rw [if_pos rfl] at h
        simp [Option.some.inj h]
      · rw [if_neg hp] at h
        simpa [hp] using ih h

theorem dictGet_dictUpdate_ne (users : List (String × User)) (k k2 : String)
    (f : User → User) (h : k2 ≠ k) :
    dictGet (dictUpdate users k f) k2 = dictGet users k2 := by
  induction users with
  | nil => rfl
  | cons p rest ih =>
      rw [dictUpdate_cons, dictGet_cons, dictGet_cons]
      by_cases hp : p.1 = k
      · simp [hp, Ne.symm h, ih]
      · by_cases hq : p.1 = k2 <;> simp [hp, hq, h, ih]

theorem dictUpdate_keys (users : List (String × User)) (k : String) (f : User → User) :
    (dictUpdate users k f).map Prod.fst = users.map Prod.fst := by
  induction users with
  | nil => rfl
  | cons p rest ih =>
      rw [dictUpdate_cons]
      by_cases hp : p.1 = k <;> simp [hp, ih]

theorem all_logs_cons (p : String × User) (rest : List (String × User)) :
    all_logs ⟨p :: rest⟩ = p.2.logs.map (fun log => (p.1, log)) ++ all_logs ⟨rest⟩ := by
  simp [all_logs]

theorem filter_tagged_type (u : String) (logs : List Entry) (t : String) :
    (logs.map (fun log => (u, log))).filter (fun q => q.2.type == t) =
      (logs.filter (fun log => log.type == t)).map (fun log => (u, log)) := by
  induction logs with
  | nil => rfl
  | cons e es ih =>
      by_cases he : e.type = t <;> simp [List.filter_cons, he, ih]

theorem total_of_eq_sum (store : Store) (t : String) :
    total_of store t = (store.users.map (fun p => bucketSum p.2.logs t)).sum := by
  obtain ⟨users⟩ := store
  induction users with
  | nil => rfl
  | cons p rest ih =>
      simp only [total_of, all_logs_cons, List.filter_append, List.map_append,
        List.sum_append, List.map_cons, List.sum_cons] at ih ⊢
      rw [filter_tagged_type, ih]
      congr 1
      rw [← sum_filter_eq_bucketSum]
      simp [List.map_map, Function.comp_def]

theorem filter_tagged_user_nil (users : List (String × User)) (u : String)
    (h : u ∉ users.map Prod.fst) :
    (all_logs ⟨users⟩).filter (fun q => q.1 == u) = [] := by
  induction users with
  | nil => rfl
  | cons p rest ih =>
      simp only [List.map_cons, List.mem_cons] at h
      push_neg at h
      rw [all_logs_cons, List.filter_append, ih h.2, List.append_nil]
      apply List.filter_eq_nil_iff.mpr
      intro q hq
      simp only [List.mem_map] at hq
      obtain ⟨log, _, rfl⟩ := hq
      simpa using fun hh => h.1 hh.symm

theorem filter_tagged_user_self (u : String) (logs : List Entry) :
    (logs.map (fun log => (u, log))).filter (fun q => q.1 == u) =
      logs.map (fun log => (u, log)) := by
  rw [List.filter_eq_self.mpr]
  intro q hq
  simp only [List.mem_map] at hq
  obtain ⟨log, _, rfl⟩ := hq
  simp

theorem user_total_eq (store : Store) (u : String) (usr : User)
    (hnd : (store.users.map Prod.fst).Nodup)
    (hu : dictGet store.users u = some usr) :
    user_total store u = (usr.logs.map Entry.amount).sum := by
  obtain ⟨users⟩ := store
  induction users with
  | nil => simp [dictGet] at hu
  | cons p rest ih =>
      rw [dictGet_cons] at hu
      simp only [List.map_cons, List.nodup_cons] at hnd
      by_cases hp : p.1 = u
      · rw [if_pos hp] at hu
        obtain rfl : p.2 = usr := Option.some.inj hu
        have hnotin : u ∉ rest.map Prod.fst := hp ▸ hnd.1
        simp only [user_total, all_logs_cons, List.filter_append, List.map_append,
          List.sum_append]
        rw [hp, filter_tagged_user_self, filter_tagged_user_nil rest u hnotin]
        simp [List.map_map, Function.comp_def]
      · rw [if_neg hp] at hu
        have ihr := ih hnd.2 hu
        simp only [user_total, all_logs_cons, List.filter_append, List.map_append,
          List.sum_append] at ihr ⊢
        rw [List.filter_eq_nil_iff.mpr, ihr]
        · simp
        · intro q hq
          simp only [List.mem_map] at hq
          obtain ⟨log, _, rfl⟩ := hq
          simpa using fun hh => hp hh

theorem decodeEntry_encodeEntry (e : Entry) : decodeEntry (encodeEntry e) = some e := rfl

theorem decodeList_encodeEntry (logs : List Entry) :
    decodeList decodeEntry (logs.map encodeEntry) = some logs := by
  induction logs with
  | nil => rfl
  | cons e es ih => simp [decodeList, decodeEntry_encodeEntry, ih]

theorem decodeUser_encodeUser (u : User) : decodeUser (encodeUser u) = some u := by
  simp [decodeUser, encodeUser, jGet, decodeList_encodeEntry]

theorem decodeUsers_encode (users : List (String × User)) :
    decodeUsers (users.map (fun p => (p.1, encodeUser p.2))) = some users := by
  induction users with
  | nil => rfl
  | cons p rest ih => simp [decodeUsers, decodeUser_encodeUser, ih]

theorem pyStrip_eq_empty_iff (s : String) :
    pyStrip s = "" ↔ ∀ c ∈ s.data, c.isWhitespace = true := by
  rw [String.ext_iff]
  show ((s.data.dropWhile Char.isWhitespace).reverse.dropWhile Char.isWhitespace).reverse
      = [] ↔ _
  rw [List.reverse_eq_nil_iff, List.dropWhile_eq_nil_iff]
  constructor
  · intro h c hc
    rw [← List.takeWhile_append_dropWhile Char.isWhitespace s.data, List.mem_append] at hc
    rcases hc with hc | hc
    · exact List.mem_takeWhile_imp hc
    · exact h c (List.mem_reverse.mpr hc)
  · intro h c hc
    exact h c ((List.dropWhile_sublist Char.isWhitespace).subset (List.mem_reverse.mp hc))

/-! ## Claims -/

/-- C1: `calculate_summary` returns `(earned, spent, given, received,
balance)` where each of the four components is the sum of the amounts of
the entries of that type, `balance = earned + received - spent - given`,
and an entry whose type is none of the four kinds contributes 0 to every
component (inserting it anywhere leaves the summary unchanged).  The
input is not mutated: `calculate_summary` is a pure function of the log
list in this embedding, as in the source, which only reads `user_logs`. -/
theorem summarize_components (user_logs pre post : List Entry) (e : Entry)
    (h : e.type ≠ "Earned" ∧ e.type ≠ "Spent" ∧ e.type ≠ "Given" ∧ e.type ≠ "Received") :
    calculate_summary user_logs =
      (bucketSum user_logs "Earned", bucketSum user_logs "Spent",
       bucketSum user_logs "Given", bucketSum user_logs "Received",
       bucketSum user_logs "Earned" + bucketSum user_logs "Received" -
         bucketSum user_logs "Spent" - bucketSum user_logs "Given") ∧
    calculate_summary (pre ++ e :: post) = calculate_summary (pre ++ post) := by
  obtain ⟨h1, h2, h3, h4⟩ := h
  refine ⟨calculate_summary_eq_bucketSum user_logs, ?_⟩
  simp [calculate_summary, List.filter_append, List.filter_cons, h1, h2, h3, h4]

/-- C1 witness: the theorem applied at a concrete unrecognized type. -/
theorem summarize_components_witness :
    calculate_summary [] =
      (bucketSum [] "Earned", bucketSum [] "Spent", bucketSum [] "Given",
       bucketSum [] "Received",
       bucketSum [] "Earned" + bucketSum [] "Received" - bucketSum [] "Spent" -
         bucketSum [] "Given") ∧
    calculate_summary ([] ++ (⟨"Bonus", 5, "x", "t"⟩ : Entry) :: []) =
      calculate_summary ([] ++ []) :=
  summarize_components [] [] [] ⟨"Bonus", 5, "x", "t"⟩ (by decide)

/-- C3: submitting a transaction with `amount <= 0` is rejected
(`st.error`, second component `false`) and the whole application state —
the user's log sequence, every other user, and the persisted file — is
returned unchanged. -/
theorem append_rejects_nonpositive (st : AppState) (username t_type : String)
    (amount : ℚ) (d ts : String) (h : amount ≤ 0) :
    submit_transaction st username t_type amount d ts = (st, false) := by
  simp [submit_transaction, not_lt.mpr h]

/-- C3 witness: a zero-amount submission against the bootstrap state. -/
theorem append_rejects_nonpositive_witness :
    submit_transaction st0 "admin" "Earned" 0 "d" "t" = (st0, false) :=
  append_rejects_nonpositive st0 "admin" "Earned" 0 "d" "t" (by norm_num)

/-- C4: `authenticate` succeeds iff the username is a key of the users
mapping and the stored digest equals `hash_password` of the supplied
password; in particular any password other than the registered one (so
in particular one differing in at least one character) fails, because
the modelled digest is collision-free as the spec requires. -/
theorem authenticate_iff_hash (store : Store) (username p0 p : String) :
    (authenticate store username p = true ↔
      ∃ usr, dictGet store.users username = some usr ∧
        usr.password = hash_password p) ∧
    (∀ usr, dictGet store.users username = some usr →
      usr.password = hash_password p0 → p ≠ p0 →
      authenticate store username p = false) := by
  constructor
  · unfold authenticate
    cases h : dictGet store.users username with
    | none => simp [h]
    | some u => simp [h]
  · intro usr hm hp0 hne
    unfold authenticate
    rw [hm]
    simp only [beq_eq_false_iff_ne, ne_eq, hp0]
    intro hh
    exact hne (hash_password_injective hh).symm

/-- C4 witness: the bootstrap admin account accepts `admin123` (via the
iff) and rejects the one-character change `admin124`. -/
theorem authenticate_iff_hash_witness :
    authenticate load_data_default "admin" "admin123" = true ∧
    authenticate load_data_default "admin" "admin124" = false :=
  ⟨(authenticate_iff_hash load_data_default "admin" "admin123" "admin123").1.mpr
      ⟨⟨hash_password "admin123", "admin", []⟩, rfl, rfl⟩,
   (authenticate_iff_hash load_data_default "admin" "admin123" "admin124").2
      ⟨hash_password "admin123", "admin", []⟩ rfl rfl (by decide)⟩

/-- C7: when no persisted document exists, `load_data` returns the
default store whose users mapping is exactly the bootstrap admin (role
`admin`, empty logs, digest of `admin123`), and `authenticate` with
`admin`/`admin123` succeeds against it. -/
theorem bootstrap_admin_default :
    load_data_default.users =
      [("admin", { password := hash_password "admin123", role := "admin", logs := [] })] ∧
    authenticate load_data_default "admin" "admin123" = true :=
  ⟨rfl, by rfl⟩

/-- C9: the persisted JSON document is stable under the
serialize/deserialize round trip: reading back what `save_data` writes
yields a document structurally equal to the one serialized — for every
store, hence in particular for a freshly loaded one. -/
theorem persisted_roundtrip (s : Store) : decodeStore (encodeStore s) = some s := by
  simp [decodeStore, encodeStore, jGet, decodeUsers_encode]

/-- C10: `log_transaction` appends exactly one entry at the end of the
named user's log sequence, preserving the existing entries in order and
the user's own password digest and role (the updated record differs only
in `logs`), leaves every other user's record unchanged, and does not
add or remove usernames. -/
theorem log_transaction_frame (st : AppState) (user t_type : String) (amount : ℚ)
    (d ts : String) (usr : User)
    (hmem : dictGet st.data.users user = some usr) :
    dictGet (log_transaction st user t_type amount d ts).data.users user =
      some { usr with logs := usr.logs ++ [⟨t_type, amount, d, ts⟩] } ∧
    (∀ u2, u2 ≠ user →
      dictGet (log_transaction st user t_type amount d ts).data.users u2 =
        dictGet st.data.users u2) ∧
    (log_transaction st user t_type amount d ts).data.users.map Prod.fst =
      st.data.users.map Prod.fst := by
  refine ⟨?_, ?_, ?_⟩
  · simpa [log_transaction, save_data] using
      dictGet_dictUpdate_self st.data.users user
        (fun u => { u with logs := u.logs ++ [⟨t_type, amount, d, ts⟩] }) usr hmem
  · intro u2 hne
    simpa [log_transaction, save_data] using
      dictGet_dictUpdate_ne st.data.users user u2
        (fun u => { u with logs := u.logs ++ [⟨t_type, amount, d, ts⟩] }) hne
  · simpa [log_transaction, save_data] using
      dictUpdate_keys st.data.users user
        (fun u => { u with logs := u.logs ++ [⟨t_type, amount, d, ts⟩] })

/-- C10 witness: one concrete append against the bootstrap state. -/
theorem log_transaction_frame_witness :
    dictGet (log_transaction st0 "admin" "Earned" 5 "d" "t").data.users "admin" =
      some { password := hash_password "admin123", role := "admin",
             logs := [] ++ [⟨"Earned", 5, "d", "t"⟩] } ∧
    (∀ u2, u2 ≠ "admin" →
      dictGet (log_transaction st0 "admin" "Earned" 5 "d" "t").data.users u2 =
        dictGet st0.data.users u2) ∧
    (log_transaction st0 "admin" "Earned" 5 "d" "t").data.users.map Prod.fst =
      st0.data.users.map Prod.fst :=
  log_transaction_frame st0 "admin" "Earned" 5 "d" "t"
    ⟨hash_password "admin123", "admin", []⟩ rfl

/-- C2: for a user present in the store, a type among the four kinds and
a positive amount, the summary of the user's logs after `log_transaction`
is the summary before it with exactly the matching bucket increased by
the amount, and the balance changed by `+amount` for Earned/Received and
`-amount` for Spent/Given. -/
theorem summarize_after_append (st : AppState) (user t_type : String) (amount : ℚ)
    (d ts : String) (usr : User) (e s g r b : ℚ)
    (hmem : dictGet st.data.users user = some usr)
    (ht : t_type = "Earned" ∨ t_type = "Spent" ∨ t_type = "Given" ∨ t_type = "Received")
    (hpos : 0 < amount)
    (hsum : calculate_summary usr.logs = (e, s, g, r, b)) :
    ∃ usr2,
      dictGet (log_transaction st user t_type amount d ts).data.users user = some usr2 ∧
      calculate_summary usr2.logs =
        (e + (if t_type = "Earned" then amount else 0),
         s + (if t_type = "Spent" then amount else 0),
         g + (if t_type = "Given" then amount else 0),
         r + (if t_type = "Received" then amount else 0),
         b + (if t_type = "Earned" ∨ t_type = "Received" then amount else -amount)) := by
  refine ⟨{ usr with logs := usr.logs ++ [⟨t_type, amount, d, ts⟩] }, ?_, ?_⟩
  · exact (log_transaction_frame st user t_type amount d ts usr hmem).1
  · rw [calculate_summary_eq_bucketSum] at hsum
    simp only [Prod.mk.injEq] at hsum
    obtain ⟨he, hs, hg, hr, hb⟩ := hsum
    rw [calculate_summary_eq_bucketSum]
    simp only [bucketSum_append_single]
    rcases ht with h | h | h | h <;> subst h <;>
      simp [he, hs, hg, hr, ← hb] <;> ring

/-- C2 witness: appending one Earned transaction of 5 to the bootstrap
admin's empty log. -/
theorem summarize_after_append_witness :
    ∃ usr2,
      dictGet (log_transaction st0 "admin" "Earned" 5 "d" "t").data.users "admin" =
        some usr2 ∧
      calculate_summary usr2.logs =
        (0 + (if ("Earned" : String) = "Earned" then (5 : ℚ) else 0),
         0 + (if ("Earned" : String) = "Spent" then (5 : ℚ) else 0),
         0 + (if ("Earned" : String) = "Given" then (5 : ℚ) else 0),
         0 + (if ("Earned" : String) = "Received" then (5 : ℚ) else 0),
         0 + (if ("Earned" : String) = "Earned" ∨ ("Earned" : String) = "Received"
              then (5 : ℚ) else -5)) :=
  summarize_after_append st0 "admin" "Earned" 5 "d" "t"
    ⟨hash_password "admin123", "admin", []⟩ 0 0 0 0 0 rfl (Or.inl rfl) (by norm_num)
    (by simp [calculate_summary])

/-- C5 counterexample: the claim says sign-up fails exactly for an empty
username, an empty password, or an existing username, but the code also
rejects whitespace-only credentials: the username `" "` is nonempty and
absent from the bootstrap store and the password `"x"` is nonempty, yet
sign-up is rejected. -/
theorem signup_rejects_whitespace_username :
    (" " : String) ≠ "" ∧ ("x" : String) ≠ "" ∧
    dictGet load_data_default.users " " = none ∧
    (signup st0 " " "x").2 = some "Username and password cannot be empty" ∧
    (signup st0 " " "x").1 = st0 := by
  refine ⟨by decide, by decide, by rfl, by rfl, by rfl⟩

/-- C5 (amended): sign-up fails exactly when the username consists only
of whitespace (including the empty string), the password consists only
of whitespace, or the username already exists in the store
(case-sensitively); on failure the state is unchanged, and on success
the new user is appended with `hash_password password`, role `"user"`
and empty logs, and the store is persisted immediately (the persisted
document is the serialization of the updated store). -/
theorem signup_spec (st : AppState) (u p : String) :
    ((signup st u p).2 = none ↔
      ¬((∀ c ∈ u.data, c.isWhitespace = true) ∨ (∀ c ∈ p.data, c.isWhitespace = true) ∨
        (dictGet st.data.users u).isSome = true)) ∧
    ((signup st u p).2.isSome = true → (signup st u p).1 = st) ∧
    ((signup st u p).2 = none →
      (signup st u p).1.data.users =
        st.data.users ++ [(u, ⟨hash_password p, "user", []⟩)] ∧
      (signup st u p).1.persisted = encodeStore (signup st u p).1.data) := by
  have hu : (pyStrip u == "") = true ↔ ∀ c ∈ u.data, c.isWhitespace = true := by
    rw [beq_iff_eq, pyStrip_eq_empty_iff]
  have hpw : (pyStrip p == "") = true ↔ ∀ c ∈ p.data, c.isWhitespace = true := by
    rw [beq_iff_eq, pyStrip_eq_empty_iff]
  unfold signup
  by_cases h1 : (pyStrip u == "") = true
  · rw [if_pos (by simp [h1])]
    exact ⟨⟨fun hco => Option.noConfusion hco,
            fun hco => absurd (Or.inl (hu.mp h1)) hco⟩,
           fun _ => rfl, fun hco => Option.noConfusion hco⟩
  · by_cases h2 : (pyStrip p == "") = true
    · rw [if_pos (by simp [h2])]
      exact ⟨⟨fun hco => Option.noConfusion hco,
              fun hco => absurd (Or.inr (Or.inl (hpw.mp h2))) hco⟩,
             fun _ => rfl, fun hco => Option.noConfusion hco⟩
    · rw [if_neg (by simp [h1, h2])]
      by_cases h3 : (dictGet st.data.users u).isSome = true
      · rw [if_pos h3]
        exact ⟨⟨fun hco => Option.noConfusion hco,
                fun hco => absurd (Or.inr (Or.inr h3)) hco⟩,
               fun _ => rfl, fun hco => Option.noConfusion hco⟩
      · rw [if_neg h3]
        refine ⟨?_, ?_, fun _ => ⟨rfl, rfl⟩⟩
        · constructor
          · rintro - (hA | hB | hC)
            · exact h1 (hu.mpr hA)
            · exact h2 (hpw.mpr hB)
            · exact h3 hC
          · intro _
            rfl
        · intro hco
          simp at hco

/-- C5 (amended) witness: registering `alice`/`pw1` against the
bootstrap state succeeds and appends exactly the new account. -/
theorem signup_spec_witness :
    (signup st0 "alice" "pw1").1.data.users =
      st0.data.users ++ [("alice", ⟨hash_password "pw1", "user", []⟩)] :=
  ((signup_spec st0 "alice" "pw1").2.2 (by rfl)).1

/-- C6: registering a username that is already a key of the store fails
(whichever validation branch fires first) and leaves the application
state — in particular the existing account's record with its password
digest, role and log sequence — exactly as it was. -/
theorem signup_duplicate_frame (st : AppState) (u p : String) (usr : User)
    (h : dictGet st.data.users u = some usr) :
    (signup st u p).2.isSome = true ∧ (signup st u p).1 = st ∧
    dictGet (signup st u p).1.data.users u = some usr := by
  unfold signup
  by_cases h1 : (pyStrip u == "" || pyStrip p == "") = true
  · rw [if_pos h1]
    exact ⟨rfl, rfl, h⟩
  · rw [if_neg h1, if_pos (by simp [h])]
    exact ⟨rfl, rfl, h⟩

/-- C6 witness: re-registering `admin` against the bootstrap state. -/
theorem signup_duplicate_frame_witness :
    (signup st0 "admin" "pw").2.isSome = true ∧ (signup st0 "admin" "pw").1 = st0 ∧
    dictGet (signup st0 "admin" "pw").1.data.users "admin" =
      some ⟨hash_password "admin123", "admin", []⟩ :=
  signup_duplicate_frame st0 "admin" "pw" ⟨hash_password "admin123", "admin", []⟩ rfl

/-- C8: the rollup's per-type total equals the sum over all users of
their per-type sums, the per-user total equals the user's own sum (for a
store with unique usernames, as Python dict keys are), and in the
concrete two-user scenario — alice with one Earned 50, bob with one
Earned 20 — the total earned is 70 with per-user totals alice 50 and
bob 20. -/
theorem rollup_totals (store : Store) (t u : String) (usr : User)
    (hnd : (store.users.map Prod.fst).Nodup)
    (hu : dictGet store.users u = some usr) :
    total_of store t = (store.users.map (fun p => bucketSum p.2.logs t)).sum ∧
    user_total store u = (usr.logs.map Entry.amount).sum ∧
    total_of twoUserStore "Earned" = 70 ∧
    user_total twoUserStore "alice" = 50 ∧
    user_total twoUserStore "bob" = 20 := by
  refine ⟨total_of_eq_sum store t, user_total_eq store u usr hnd hu, ?_, ?_, ?_⟩
  · show (((all_logs twoUserStore).filter (fun p => p.2.type == "Earned")).map
        (fun p => p.2.amount)).sum = 70
    rw [show ((all_logs twoUserStore).filter (fun p => p.2.type == "Earned")).map
        (fun p => p.2.amount) = [(50 : ℚ), 20] from rfl]
    norm_num
  · show (((all_logs twoUserStore).filter (fun p => p.1 == "alice")).map
        (fun p => p.2.amount)).sum = 50
    rw [show ((all_logs twoUserStore).filter (fun p => p.1 == "alice")).map
        (fun p => p.2.amount) = [(50 : ℚ)] from rfl]
    norm_num
  · show (((all_logs twoUserStore).filter (fun p => p.1 == "bob")).map
        (fun p => p.2.amount)).sum = 20
    rw [show ((all_logs twoUserStore).filter (fun p => p.1 == "bob")).map
        (fun p => p.2.amount) = [(20 : ℚ)] from rfl]
    norm_num

/-- C8 witness: the per-user clause applied to the two-user scenario. -/
theorem rollup_totals_witness :
    user_total twoUserStore "alice" =
      (([⟨"Earned", 50, "a", "t1"⟩] : List Entry).map Entry.amount).sum :=
  (rollup_totals twoUserStore "Earned" "alice"
      ⟨hash_password "pw1", "user", [⟨"Earned", 50, "a", "t1"⟩]⟩
      (by decide) (by rfl)).2.1

end EconBank
